import Mathlib

/-!
Verification of the restaurant-ordering backend.

The JavaScript sources are embedded shallowly:
pure helper functions become Lean functions, the mutation of
`session.currentOrder` becomes explicit state passing on an `Order`
value, the regex-based directive extraction becomes an explicit
scanner over `List Char` with the same leftmost, non-overlapping,
case-insensitive matching discipline, and the Redis-backed session
store becomes an association list where a `set` shadows earlier
entries.  Machine numbers are modelled as `Int` (prices and
quantities are small integers in the source).
-/

/-! ## Character and list utilities (JS string primitives) -/

/-- Whitespace test used to model `String.prototype.trim`. -/
def isWsChar (c : Char) : Bool :=
  c == ' ' || c == '\t' || c == '\n' || c == '\r'

/-- Model of `s.trim()`: drop whitespace at both ends. -/
def trimChars (l : List Char) : List Char :=
  ((l.dropWhile isWsChar).reverse.dropWhile isWsChar).reverse

/-- Model of `s.toLowerCase()` on ASCII text. -/
def lowerChars (l : List Char) : List Char :=
  l.map Char.toLower

/-- Does `hay` start with `needle` (exact characters)?  Arguments:
needle first, haystack second. -/
def startsWithChars : List Char → List Char → Bool
  | [], _ => true
  | _ :: _, [] => false
  | a :: as, b :: bs => a == b && startsWithChars as bs

/-- Model of `hay.includes(needle)` for JS strings. -/
def containsSub : List Char → List Char → Bool
  | [], needle => needle.isEmpty
  | a :: t, needle => startsWithChars needle (a :: t) || containsSub t needle

/-- Case-insensitive character comparison (the `/i` regex flag). -/
def charEqCI (a b : Char) : Bool :=
  a.toLower == b.toLower

/-- Does `hay` start with `needle`, comparing case-insensitively?
Arguments: needle first, haystack second. -/
def startsWithCI : List Char → List Char → Bool
  | [], _ => true
  | _ :: _, [] => false
  | a :: as, b :: bs => charEqCI a b && startsWithCI as bs

/-- First whitespace-delimited token, as in `s.split(' ')[0]` on a
trimmed string. -/
def firstWord (l : List Char) : List Char :=
  l.takeWhile (fun c => !(isWsChar c))

/-- Numeric value of a digit string, as computed by `parseInt(s, 10)`
on an all-digit string. -/
def digitsToNat (l : List Char) : Nat :=
  l.foldl (fun n c => n * 10 + (c.toNat - 48)) 0

/-! ## Data model (src/server/index.js) -/

/-- A catalog entry of the static `MENU` constant. -/
structure MenuItem where
  id : String
  name : String
  price : Int
  description : String
deriving DecidableEq, Repr

/-- One cart line of `session.currentOrder.items`. -/
structure OrderLine where
  id : String
  name : String
  price : Int
  quantity : Int
deriving DecidableEq, Repr

/-- The `session.currentOrder` record of src/server/index.js: the list
of lines and the derived total. -/
structure Order where
  items : List OrderLine
  totalCost : Int
deriving DecidableEq, Repr

/-- The order of a fresh session (`createNewSession`). -/
def emptyOrder : Order :=
  { items := [], totalCost := 0 }

/-- The `MENU` constant of src/server/index.js, flattened in object
iteration order: mains, then drinks, then sides, each in array order. -/
def menuItems : List MenuItem :=
  [ { id := "jollof_rice", name := "Jollof Rice", price := 2500,
      description := "Spicy Nigerian rice with tomatoes and spices and chicken" },
    { id := "fried_rice", name := "Fried Rice", price := 2800,
      description := "Mixed vegetables fried rice and chicken" },
    { id := "chicken_shawarma", name := "Chicken Shawarma", price := 2800,
      description := "Grilled chicken with vegetables" },
    { id := "pounded_yam", name := "Pounded Yam with Egusi", price := 3500,
      description := "Traditional pounded yam with egusi soup" },
    { id := "suya", name := "Suya Platter", price := 2000,
      description := "Grilled spiced meat skewers" },
    { id := "beef_burger", name := "Beef Burger", price := 2000,
      description := "Beef burger with lettuce, tomato, and onion" },
    { id := "zobo", name := "Zobo Drink", price := 800,
      description := "Traditional Nigerian hibiscus drink" },
    { id := "chapman", name := "Chapman", price := 1200,
      description := "Nigerian cocktail with fruits" },
    { id := "water", name := "Bottled Water", price := 300,
      description := "500ml bottled water" },
    { id := "5_alive", name := "5 Alive", price := 1500,
      description := "5 Alive drink" },
    { id := "soft_drink", name := "Soft Drink", price := 500,
      description := "Coca-Cola, Pepsi, or Sprite" },
    { id := "plantain", name := "Fried Plantain", price := 800,
      description := "Sweet fried plantain slices" },
    { id := "moi_moi", name := "Moi Moi", price := 1000,
      description := "Steamed bean pudding" },
    { id := "salad", name := "Garden Salad", price := 1200,
      description := "Fresh mixed vegetables" } ]

/-- The smaller `MENU` constant of the CLI variant (src/unnamed/part_000),
flattened in the same iteration order. -/
def cliMenuItems : List MenuItem :=
  [ { id := "jollof_rice", name := "Jollof Rice", price := 2500,
      description := "Spicy Nigerian rice with tomatoes and spices" },
    { id := "fried_rice", name := "Fried Rice", price := 2800,
      description := "Mixed vegetables fried rice" },
    { id := "pounded_yam", name := "Pounded Yam with Egusi", price := 3500,
      description := "Traditional pounded yam with egusi soup" },
    { id := "suya", name := "Suya Platter", price := 2000,
      description := "Grilled spiced meat skewers" },
    { id := "zobo", name := "Zobo Drink", price := 800,
      description := "Traditional Nigerian hibiscus drink" },
    { id := "chapman", name := "Chapman", price := 1200,
      description := "Nigerian cocktail with fruits" },
    { id := "water", name := "Bottled Water", price := 300,
      description := "500ml bottled water" },
    { id := "soft_drink", name := "Soft Drink", price := 500,
      description := "Coca-Cola, Pepsi, or Sprite" },
    { id := "plantain", name := "Fried Plantain", price := 800,
      description := "Sweet fried plantain slices" },
    { id := "moi_moi", name := "Moi Moi", price := 1000,
      description := "Steamed bean pudding" },
    { id := "salad", name := "Garden Salad", price := 1200,
      description := "Fresh mixed vegetables" } ]

/-! ## Order mutation engine (src/server/index.js, lines 117-202) -/

/-- Embedding of `calculateTotal`: `items.reduce((t, i) => t + i.price *
i.quantity, 0)`. -/
def calculateTotal (items : List OrderLine) : Int :=
  items.foldl (fun total it => total + it.price * it.quantity) 0

/-- Increment the quantity of the first line with the given id,
modelling `items.find(i => i.id === id).quantity += q`. -/
def incQtyFirst (itemId : String) (q : Int) : List OrderLine → List OrderLine
  | [] => []
  | it :: rest =>
    if it.id = itemId then { it with quantity := it.quantity + q } :: rest
    else it :: incQtyFirst itemId q rest

/-- Set the quantity of the first line with the given id, modelling
`items.find(i => i.id === id).quantity = q`. -/
def setQtyFirst (itemId : String) (q : Int) : List OrderLine → List OrderLine
  | [] => []
  | it :: rest =>
    if it.id = itemId then { it with quantity := q } :: rest
    else it :: setQtyFirst itemId q rest

/-- The line object pushed by `addItemToOrder` for a new item. -/
def mkLine (menuItem : MenuItem) (quantity : Int) : OrderLine :=
  { id := menuItem.id, name := menuItem.name,
    price := menuItem.price, quantity := quantity }

/-- Embedding of `addItemToOrder(menuItem, quantity, session)`: reject a
non-positive quantity, increment an existing line or append a new one,
then recompute the total. -/
def addItemToOrder (menuItem : MenuItem) (quantity : Int) (o : Order) : Order :=
  if quantity ≤ 0 then o
  else
    let items :=
      if o.items.any (fun it => decide (it.id = menuItem.id)) then
        incQtyFirst menuItem.id quantity o.items
      else
        o.items ++ [mkLine menuItem quantity]
    { items := items, totalCost := calculateTotal items }

/-- Embedding of `removeItemFromOrder(itemId, session)`, faithful to the
source: the filter predicate is `item.id === itemId`, so the filtered
list KEEPS the lines whose id equals `itemId`; the total is recomputed
only when the length shrank. -/
def removeItemFromOrder (itemId : String) (o : Order) : Order :=
  let items := o.items.filter (fun it => decide (it.id = itemId))
  if items.length < o.items.length then
    { items := items, totalCost := calculateTotal items }
  else
    { o with items := items }

/-- Embedding of `updateItemInOrder(itemId, newQuantity, session)`: when
the line exists, a non-positive new quantity delegates to
`removeItemFromOrder`, otherwise the quantity is set and the total
recomputed; when the line is absent nothing happens. -/
def updateItemInOrder (itemId : String) (newQuantity : Int) (o : Order) : Order :=
  if o.items.any (fun it => decide (it.id = itemId)) then
    if newQuantity ≤ 0 then removeItemFromOrder itemId o
    else
      let items := setQtyFirst itemId newQuantity o.items
      { items := items, totalCost := calculateTotal items }
  else o

/-! ## Menu resolution (src/server/index.js, lines 90-110) -/

/-- The loop of `findMenuItem` in src/server/index.js: an exact
case-insensitive name match returns immediately; otherwise each
bidirectional-substring match overwrites `bestMatch`, which is returned
at the end. -/
def findMenuItemGo (q : List Char) : List MenuItem → Option MenuItem → Option MenuItem
  | [], best => best
  | it :: rest, best =>
    let il := lowerChars it.name.data
    if il = q then some it
    else if containsSub il q || containsSub q il then
      findMenuItemGo q rest (some it)
    else
      findMenuItemGo q rest best

/-- Embedding of `findMenuItem(name)` from src/server/index.js on raw
characters: lower-case, trim, then run the search loop. -/
def findMenuItemL (raw : List Char) : Option MenuItem :=
  findMenuItemGo (trimChars (lowerChars raw)) menuItems none

/-- Embedding of `findMenuItem(name)` from src/server/index.js. -/
def findMenuItem (name : String) : Option MenuItem :=
  findMenuItemL name.data

/-- The per-item test of `findMenuItem` in src/unnamed/part_000: the
item name contains the query, or the item id contains the query, or the
query contains the first word of the item name. -/
def cliPred (q : List Char) (it : MenuItem) : Bool :=
  containsSub (lowerChars it.name.data) q ||
  containsSub (lowerChars it.id.data) q ||
  containsSub q (firstWord (lowerChars it.name.data))

/-- The loop of `findMenuItem` in src/unnamed/part_000: return the first
item passing `cliPred`. -/
def cliFindGo (q : List Char) : List MenuItem → Option MenuItem
  | [] => none
  | it :: rest => if cliPred q it then some it else cliFindGo q rest

/-- Embedding of `findMenuItem(itemName)` from src/unnamed/part_000. -/
def cliFindMenuItem (itemName : String) : Option MenuItem :=
  cliFindGo (trimChars (lowerChars itemName.data)) cliMenuItems

/-! ## Directive extraction (src/server/index.js, lines 209-259 and 379-383)

The three patterns are the regexes
`/ORDER_ADD:([^|]+)\|QUANTITY:(\d+)/gi`, `/ORDER_REMOVE:([^|]+)/gi` and
`/ORDER_UPDATE:([^|]+)\|QUANTITY:(\d+)/gi`.  `[^|]+` is greedy and
cannot cross a bar, so at a given start position the capture is exactly
the run of non-bar characters after the literal, the attempt fails when
that run is empty or (for ADD/UPDATE) when `|QUANTITY:` plus at least
one digit does not follow, and on failure the scan advances one
character, as a JS global regex does.  Matches are leftmost and
non-overlapping.  The scanners below implement exactly that, with a
fuel argument (one unit per consumed character) to make them
structurally recursive. -/

/-- The literal `ORDER_ADD:` of the add directive. -/
def addLit : List Char := ("ORDER_ADD:").data

/-- The literal `ORDER_REMOVE:` of the remove directive. -/
def removeLit : List Char := ("ORDER_REMOVE:").data

/-- The literal `ORDER_UPDATE:` of the update directive. -/
def updateLit : List Char := ("ORDER_UPDATE:").data

/-- The literal `|QUANTITY:` shared by the add and update directives. -/
def qtyLit : List Char := ("|QUANTITY:").data

/-- Try the add pattern at the head of `s`; on success return the name
capture, the digit capture and the number of characters matched. -/
def matchAddAt (s : List Char) : Option (List Char × List Char × Nat) :=
  if startsWithCI addLit s then
    let r1 := s.drop addLit.length
    let cap := r1.takeWhile (fun c => decide (c ≠ '|'))
    if cap.isEmpty then none
    else
      let r2 := r1.drop cap.length
      if startsWithCI qtyLit r2 then
        let digits := (r2.drop qtyLit.length).takeWhile Char.isDigit
        if digits.isEmpty then none
        else some (cap, digits, addLit.length + cap.length + qtyLit.length + digits.length)
      else none
  else none

/-- Try the remove pattern at the head of `s`; on success return the
name capture and the number of characters matched. -/
def matchRemoveAt (s : List Char) : Option (List Char × Nat) :=
  if startsWithCI removeLit s then
    let cap := (s.drop removeLit.length).takeWhile (fun c => decide (c ≠ '|'))
    if cap.isEmpty then none
    else some (cap, removeLit.length + cap.length)
  else none

/-- Try the update pattern at the head of `s`; on success return the
name capture, the digit capture and the number of characters matched. -/
def matchUpdateAt (s : List Char) : Option (List Char × List Char × Nat) :=
  if startsWithCI updateLit s then
    let r1 := s.drop updateLit.length
    let cap := r1.takeWhile (fun c => decide (c ≠ '|'))
    if cap.isEmpty then none
    else
      let r2 := r1.drop cap.length
      if startsWithCI qtyLit r2 then
        let digits := (r2.drop qtyLit.length).takeWhile Char.isDigit
        if digits.isEmpty then none
        else some (cap, digits, updateLit.length + cap.length + qtyLit.length + digits.length)
      else none
  else none

/-- All matches of the add pattern: `aiResponse.match(/ADD.../gi)`. -/
def scanAddsF : Nat → List Char → List (List Char × List Char)
  | 0, _ => []
  | _ + 1, [] => []
  | fuel + 1, c :: cs =>
    match matchAddAt (c :: cs) with
    | some (cap, digits, k) => (cap, digits) :: scanAddsF fuel ((c :: cs).drop k)
    | none => scanAddsF fuel cs

/-- All matches of the add pattern in a string. -/
def scanAdds (s : List Char) : List (List Char × List Char) :=
  scanAddsF s.length s

/-- All matches of the remove pattern: `aiResponse.match(/REMOVE.../gi)`. -/
def scanRemovesF : Nat → List Char → List (List Char)
  | 0, _ => []
  | _ + 1, [] => []
  | fuel + 1, c :: cs =>
    match matchRemoveAt (c :: cs) with
    | some (cap, k) => cap :: scanRemovesF fuel ((c :: cs).drop k)
    | none => scanRemovesF fuel cs

/-- All matches of the remove pattern in a string. -/
def scanRemoves (s : List Char) : List (List Char) :=
  scanRemovesF s.length s

/-- All matches of the update pattern: `aiResponse.match(/UPDATE.../gi)`. -/
def scanUpdatesF : Nat → List Char → List (List Char × List Char)
  | 0, _ => []
  | _ + 1, [] => []
  | fuel + 1, c :: cs =>
    match matchUpdateAt (c :: cs) with
    | some (cap, digits, k) => (cap, digits) :: scanUpdatesF fuel ((c :: cs).drop k)
    | none => scanUpdatesF fuel cs

/-- All matches of the update pattern in a string. -/
def scanUpdates (s : List Char) : List (List Char × List Char) :=
  scanUpdatesF s.length s

/-- Delete every match of the add pattern: `.replace(/ADD.../gi, '')`. -/
def replAddsF : Nat → List Char → List Char
  | 0, _ => []
  | _ + 1, [] => []
  | fuel + 1, c :: cs =>
    match matchAddAt (c :: cs) with
    | some (_, _, k) => replAddsF fuel ((c :: cs).drop k)
    | none => c :: replAddsF fuel cs

/-- Delete every match of the add pattern in a string. -/
def replAdds (s : List Char) : List Char :=
  replAddsF s.length s

/-- Delete every match of the remove pattern: `.replace(/REMOVE.../gi, '')`. -/
def replRemovesF : Nat → List Char → List Char
  | 0, _ => []
  | _ + 1, [] => []
  | fuel + 1, c :: cs =>
    match matchRemoveAt (c :: cs) with
    | some (_, k) => replRemovesF fuel ((c :: cs).drop k)
    | none => c :: replRemovesF fuel cs

/-- Delete every match of the remove pattern in a string. -/
def replRemoves (s : List Char) : List Char :=
  replRemovesF s.length s

/-- Delete every match of the update pattern: `.replace(/UPDATE.../gi, '')`. -/
def replUpdatesF : Nat → List Char → List Char
  | 0, _ => []
  | _ + 1, [] => []
  | fuel + 1, c :: cs =>
    match matchUpdateAt (c :: cs) with
    | some (_, _, k) => replUpdatesF fuel ((c :: cs).drop k)
    | none => c :: replUpdatesF fuel cs

/-- Delete every match of the update pattern in a string. -/
def replUpdates (s : List Char) : List Char :=
  replUpdatesF s.length s

/-- Embedding of `processOrderInstructions(aiResponse, session)`: apply
every add directive, then every remove directive, then every update
directive found in the raw model output, each via menu resolution on
the trimmed captured name; unresolvable names are skipped. -/
def processOrderInstructions (aiResponse : String) (o : Order) : Order :=
  let s := aiResponse.data
  let o1 := (scanAdds s).foldl (fun acc pr =>
    match findMenuItemL (trimChars pr.1) with
    | some mi => addItemToOrder mi (Int.ofNat (digitsToNat pr.2)) acc
    | none => acc) o
  let o2 := (scanRemoves s).foldl (fun acc cap =>
    match findMenuItemL (trimChars cap) with
    | some mi => removeItemFromOrder mi.id acc
    | none => acc) o1
  (scanUpdates s).foldl (fun acc pr =>
    match findMenuItemL (trimChars pr.1) with
    | some mi => updateItemInOrder mi.id (Int.ofNat (digitsToNat pr.2)) acc
    | none => acc) o2

/-- Embedding of the `cleanResponse` computation in the `/api/chat`
handler (src/server/index.js, lines 379-383): strip every add, remove
and update directive from the model output, then trim. -/
def cleanResponse (aiContent : String) : String :=
  String.mk (trimChars (replUpdates (replRemoves (replAdds aiContent.data))))

/-! ## Mutation sequences (for the total-cost invariant) -/

/-- One call to the order mutation engine of src/server/index.js. -/
inductive Op where
  | add (menuItem : MenuItem) (quantity : Int)
  | remove (itemId : String)
  | update (itemId : String) (newQuantity : Int)
deriving Repr

/-- Apply one mutation call. -/
def applyOp (o : Order) : Op → Order
  | Op.add mi q => addItemToOrder mi q o
  | Op.remove itemId => removeItemFromOrder itemId o
  | Op.update itemId q => updateItemInOrder itemId q o

/-- Apply a sequence of mutation calls, first to last. -/
def applyOps (ops : List Op) (o : Order) : Order :=
  ops.foldl applyOp o

/-! ## Structured (Gemini) variant: src/server/server.js

The file holds two Express servers.  The first exposes
`POST /api/chat` backed by `getUserSession` (keys `user:<userId>`); the
second exposes `POST /chat` backed by `getOrCreateSession` (keys
`session:<sessionId>`).  Redis is modelled as an association list in
which `set` prepends and `get` returns the most recent binding; the
single network call to the model and `JSON.parse` of its reply are
modelled by an `Option` payload argument (`none` = the reply text did
not parse as JSON). -/

/-- The `userPreferences` record of the conversation context. -/
structure Prefs where
  allergies : List String
  frequentOrders : List String
deriving DecidableEq, Repr

/-- The conversation context carried in a stored session. -/
structure Ctx where
  previouslyMentionedItems : List String
  pendingConfirmations : List String
  userPreferences : Prefs
deriving DecidableEq, Repr

/-- The order record stored by the structured variant: items, total and
a status string. -/
structure OrderS where
  items : List OrderLine
  totalCost : Int
  status : String
deriving DecidableEq, Repr

/-- The value stored per session key: an order plus a context. -/
structure SessionData where
  order : OrderS
  context : Ctx
deriving DecidableEq, Repr

/-- The key-value session store (model of Redis). -/
def Store := List (String × SessionData)

/-- Read a key: the most recently written binding, if any. -/
def storeGet (st : Store) (k : String) : Option SessionData :=
  (List.find? (fun p => decide (p.1 = k)) st).map Prod.snd

/-- Write a key (`redis.set`): the new binding shadows older ones. -/
def storeSet (st : Store) (k : String) (v : SessionData) : Store :=
  (k, v) :: st

/-- The fresh session materialized on a miss: empty draft order and
empty context. -/
def freshSessionData : SessionData :=
  { order := { items := [], totalCost := 0, status := "draft" },
    context := { previouslyMentionedItems := [], pendingConfirmations := [],
                 userPreferences := { allergies := [], frequentOrders := [] } } }

/-- Embedding of `getUserSession(userId)` (src/server/server.js, lines
158-179): return the stored session for `user:<userId>`, or create,
persist and return a fresh empty one when the key is absent. -/
def getUserSession (st : Store) (userId : String) : SessionData × Store :=
  match storeGet st ("user:" ++ userId) with
  | some s => (s, st)
  | none => (freshSessionData, storeSet st ("user:" ++ userId) freshSessionData)

/-- Embedding of `getOrCreateSession(redis, sessionId)` (src/server/
server.js, lines 444-469): with no session id, create, persist and
return a fresh session under a newly generated id (the id generation is
passed in as `newId`); with a session id, return the stored session or
throw `Session not found` when the key is absent. -/
def getOrCreateSession (newId : String) (st : Store) (sessionId : Option String) :
    Except String (String × SessionData × Store) :=
  match sessionId with
  | none =>
    Except.ok (newId, freshSessionData,
      storeSet st ("session:" ++ newId) freshSessionData)
  | some sid =>
    match storeGet st ("session:" ++ sid) with
    | none => Except.error ("Session not found")
    | some s => Except.ok (sid, s, st)

/-- The fields of the model's JSON payload used by the `POST /api/chat`
handler; `userIntent`, `item`, `requiresConfirmation` and `suggestions`
are echoed to the client but never read, so they are elided. -/
structure PayloadA where
  response : String
  currentOrder : OrderS
  context : Ctx
deriving DecidableEq, Repr

/-- The fields of the model's JSON payload used by the `POST /chat`
handler of the second server; that handler guards each assignment with
a truthiness test, so the two fields are optional here. -/
structure PayloadB where
  response : String
  currentOrder : Option OrderS
  context : Option Ctx
deriving DecidableEq, Repr

/-- Embedding of the `POST /api/chat` handler (src/server/server.js,
lines 32-118): load (or materialize) the session, then, if the model
reply parsed as JSON, store a session whose order and context are the
payload's `currentOrder` and `context` (the object spread keeps no
other field, `SessionData` having exactly those two) and answer 200; if
the reply did not parse, the thrown error reaches the catch-all and the
handler answers 500 without writing the session. -/
def apiChat (st : Store) (userId : String) (parsed : Option PayloadA) :
    Except Nat (PayloadA × String) × Store :=
  let g := getUserSession st userId
  match parsed with
  | none => (Except.error 500, g.2)
  | some p =>
    (Except.ok (p, userId),
     storeSet g.2 ("user:" ++ userId) { order := p.currentOrder, context := p.context })

/-- Embedding of the `POST /chat` handler of the second server
(src/server/server.js, lines 330-441): load or create the session via
`getOrCreateSession` (a throw there reaches the outer catch and answers
500 with no write); then, if the model reply parsed as JSON, overwrite
`session.order` and `session.context` with the payload fields that are
present, persist, and answer 200; if the reply did not parse, answer
500 without writing the session. -/
def chatHandler (newId : String) (st : Store) (sessionId : Option String)
    (parsed : Option PayloadB) : Except Nat (PayloadB × String) × Store :=
  match getOrCreateSession newId st sessionId with
  | Except.error _ => (Except.error 500, st)
  | Except.ok (sid, session, st1) =>
    match parsed with
    | none => (Except.error 500, st1)
    | some p =>
      let session1 := { session with order := p.currentOrder.getD session.order }
      let session2 := { session1 with context := p.context.getD session1.context }
      (Except.ok (p, sid), storeSet st1 ("session:" ++ sid) session2)

/-! ## Specification-side definitions

These follow the words of the specification (not the source); they are
compared against the source embeddings in the menu-resolution claim. -/

/-- Spec reading, level 1: the first item (in catalog iteration order)
whose lower-cased name equals the query. -/
def firstExact (q : List Char) : List MenuItem → Option MenuItem
  | [] => none
  | it :: rest =>
    if lowerChars it.name.data = q then some it else firstExact q rest

/-- The bidirectional substring test of the resolution's second level. -/
def fuzzyHit (q : List Char) (it : MenuItem) : Bool :=
  containsSub (lowerChars it.name.data) q || containsSub q (lowerChars it.name.data)

/-- The last item (in catalog iteration order) passing the substring
test, which is what the source loop actually keeps. -/
def lastFuzzy (q : List Char) : List MenuItem → Option MenuItem
  | [] => none
  | it :: rest =>
    match lastFuzzy q rest with
    | some x => some x
    | none => if fuzzyHit q it then some it else none

/-- Menu resolution exactly as the claim words it: exact match first,
then first substring match, then the first item whose name's first
token equals the query's first token, each level tie-broken by the
first match in catalog iteration order. -/
def resolveClaim (q : String) : Option MenuItem :=
  let nq := trimChars (lowerChars q.data)
  match firstExact nq menuItems with
  | some it => some it
  | none =>
    match menuItems.find? (fuzzyHit nq) with
    | some it => some it
    | none =>
      menuItems.find? (fun it => decide (firstWord nq = firstWord (lowerChars it.name.data)))

/-! ## General lemmas -/

/-- A filter that did not shorten a list kept every element. -/
theorem filter_eq_self_of_length {α : Type} (p : α → Bool) :
    ∀ l : List α, (l.filter p).length = l.length → l.filter p = l := by
  intro l
  induction l with
  | nil => intro _; rfl
  | cons a t ih =>
    intro h
    by_cases hp : p a
    · simp only [List.filter_cons, hp, if_true, List.length_cons] at h ⊢
      rw [ih (Nat.succ_injective h)]
    · exfalso
      simp only [List.filter_cons, if_neg hp, List.length_cons] at h
      have hle := List.length_filter_le p t
      omega

/-- A `takeWhile` whose predicate holds everywhere keeps the list. -/
theorem takeWhile_all {α : Type} (p : α → Bool) :
    ∀ l : List α, (∀ c ∈ l, p c = true) → l.takeWhile p = l := by
  intro l
  induction l with
  | nil => intro _; rfl
  | cons a t ih =>
    intro h
    have ha : p a = true := h a (by simp)
    simp only [List.takeWhile_cons, ha, if_true]
    rw [ih (fun c hc => h c (by simp [hc]))]

/-- A `takeWhile` stops exactly at the first failing element. -/
theorem takeWhile_stops {α : Type} (p : α → Bool) :
    ∀ (l1 : List α) (x : α) (l2 : List α), (∀ c ∈ l1, p c = true) → p x = false →
      (l1 ++ x :: l2).takeWhile p = l1 := by
  intro l1
  induction l1 with
  | nil => intro x l2 _ hx; simp [List.takeWhile_cons, hx]
  | cons a t ih =>
    intro x l2 h hx
    have ha : p a = true := h a (by simp)
    simp only [List.cons_append, List.takeWhile_cons, ha, if_true]
    rw [ih x l2 (fun c hc => h c (by simp [hc])) hx]

/-- Case-insensitive prefix matching accepts the literal itself followed
by anything. -/
theorem startsWithCI_self_append :
    ∀ (lit rest : List Char), startsWithCI lit (lit ++ rest) = true := by
  intro lit
  induction lit with
  | nil => intro rest; rfl
  | cons a t ih =>
    intro rest
    simp only [List.cons_append, startsWithCI, charEqCI, beq_self_eq_true, Bool.true_and]
    exact ih rest

/-- Reading back the most recent write of a key. -/
theorem storeGet_set_self (st : Store) (k : String) (v : SessionData) :
    storeGet (storeSet st k v) k = some v := by
  simp [storeGet, storeSet, List.find?_cons_of_pos]

/-! ## Claim C1 -/

/-- A two-line order used to exhibit the behaviour of the mutation
engine at concrete inputs. -/
def o2Lines : Order :=
  { items := [ { id := ("jollof_rice"), name := ("Jollof Rice"), price := 2500, quantity := 1 },
               { id := ("chapman"), name := ("Chapman"), price := 1200, quantity := 2 } ],
    totalCost := 4900 }

/-- C1: evaluating `removeItemFromOrder` on a two-line order shows the
filter keeps only the line matching the removed id and deletes every
other line, and that removing an id absent from a non-empty order
empties the order instead of being a no-op: the claim describes the
intended behaviour (as the function's own comment and warning message
do), the code inverts it. -/
theorem removeItem_keeps_only_target :
    removeItemFromOrder ("jollof_rice") o2Lines
        = { items := [ { id := ("jollof_rice"), name := ("Jollof Rice"),
                         price := 2500, quantity := 1 } ],
            totalCost := 2500 } ∧
    removeItemFromOrder ("pizza") o2Lines = { items := [], totalCost := 0 } := by
  decide

/-! ## Claim C2 -/

/-- C2: evaluating `updateItemInOrder` with new quantity 0 on a two-line
order shows it keeps the target line (with its old quantity) and
deletes every other line, because it delegates to the inverted filter
of `removeItemFromOrder`; the claim describes the intended behaviour,
the code inverts it.  The positive-quantity and absent-line clauses do
behave as claimed, as the second and third conjuncts show. -/
theorem updateQuantity_zero_drops_other_lines :
    updateItemInOrder ("jollof_rice") 0 o2Lines
        = { items := [ { id := ("jollof_rice"), name := ("Jollof Rice"),
                         price := 2500, quantity := 1 } ],
            totalCost := 2500 } ∧
    updateItemInOrder ("jollof_rice") 5 o2Lines
        = { items := [ { id := ("jollof_rice"), name := ("Jollof Rice"),
                         price := 2500, quantity := 5 },
                       { id := ("chapman"), name := ("Chapman"),
                         price := 1200, quantity := 2 } ],
            totalCost := 14900 } ∧
    updateItemInOrder ("pizza") 3 o2Lines = o2Lines := by
  decide

/-! ## Claim C5 -/

/-- The directive-extraction scenario text fixed by the specification. -/
def c5input : String :=
  "Sure! ORDER_ADD:Jollof Rice|QUANTITY:2 Anything else? ORDER_ADD:Chapman|QUANTITY:1"

/-- C5 counterexample: the user-visible text produced by `cleanResponse`
is not the claimed string with a trailing space, because the handler
trims the stripped text. -/
theorem directive_scenario_text_refuted :
    cleanResponse c5input ≠ ("Sure!  Anything else? ") := by
  decide

/-- C5 (amended): the scenario yields the two-line order (Jollof Rice
times 2, Chapman times 1, total 6200) and the user-visible text
`Sure!  Anything else?`, i.e. the directive substrings are stripped and
the remainder trimmed, so the trailing space of the claimed string is
removed. -/
theorem directive_scenario_amended :
    processOrderInstructions c5input emptyOrder
        = { items := [ { id := ("jollof_rice"), name := ("Jollof Rice"),
                         price := 2500, quantity := 2 },
                       { id := ("chapman"), name := ("Chapman"),
                         price := 1200, quantity := 1 } ],
            totalCost := 6200 } ∧
    cleanResponse c5input = ("Sure!  Anything else?") := by
  decide

/-! ## Claim C6 -/

/-- C6 counterexample: `getOrCreateSession`, one of the two session-get
operations, raises `Session not found` on a store miss for a supplied
session id instead of materializing a fresh session, refuting the
claim that a store miss never raises an error. -/
theorem session_get_miss_raises :
    getOrCreateSession ("n") ([]) (some ("s1")) = Except.error ("Session not found") :=
  rfl

/-- C6 (amended): `getUserSession` satisfies the claim (stored session
returned on a hit; fresh empty session created, persisted and returned
on a miss, never an error), while `getOrCreateSession` materializes a
fresh session only when no session id is supplied and raises `Session
not found` on a store miss for a supplied id. -/
theorem session_get_amended (st : Store) (uid sid newId : String) (v : SessionData) :
    (storeGet st (("user:") ++ uid) = some v → getUserSession st uid = (v, st)) ∧
    (storeGet st (("user:") ++ uid) = none →
      getUserSession st uid
        = (freshSessionData, storeSet st (("user:") ++ uid) freshSessionData)) ∧
    (getOrCreateSession newId st none
        = Except.ok (newId, freshSessionData,
            storeSet st (("session:") ++ newId) freshSessionData)) ∧
    (storeGet st (("session:") ++ sid) = none →
      getOrCreateSession newId st (some sid) = Except.error ("Session not found")) ∧
    (storeGet st (("session:") ++ sid) = some v →
      getOrCreateSession newId st (some sid) = Except.ok (sid, v, st)) := by
  refine ⟨fun h => ?_, fun h => ?_, rfl, fun h => ?_, fun h => ?_⟩
  · simp [getUserSession, h]
  · simp [getUserSession, h]
  · simp [getOrCreateSession, h]
  · simp [getOrCreateSession, h]

/-- Witness for the amended C6 theorem at concrete stores: a hit
returns the stored value unchanged, and a supplied-id miss errors. -/
theorem session_get_amended_witness :
    getUserSession ([((("user:u")), freshSessionData)]) ("u")
        = (freshSessionData, [((("user:u")), freshSessionData)]) ∧
    getOrCreateSession ("n") ([]) (some ("s1")) = Except.error ("Session not found") :=
  ⟨(session_get_amended ([((("user:u")), freshSessionData)]) ("u") ("s1") ("n")
      freshSessionData).1 (by decide),
   (session_get_amended ([]) ("u") ("s1") ("n") freshSessionData).2.2.2.1 (by decide)⟩

/-! ## Claim C3 -/

/-- The total-cost invariant: the stored total equals the sum of
price times quantity over the current lines. -/
def totalInv (o : Order) : Prop :=
  o.totalCost = calculateTotal o.items

/-- `addItemToOrder` preserves the total-cost invariant: it either
leaves the order alone (non-positive quantity) or recomputes the total
from the new line list. -/
theorem totalInv_add (mi : MenuItem) (q : Int) (o : Order) (h : totalInv o) :
    totalInv (addItemToOrder mi q o) := by
  unfold addItemToOrder
  by_cases hq : q ≤ 0
  · simpa [hq]
  · simp [hq, totalInv]

/-- `removeItemFromOrder` preserves the total-cost invariant: when the
filter shortened the list the total is recomputed, and when it did not
the filter kept every line, so the order is unchanged. -/
theorem totalInv_remove (itemId : String) (o : Order) (h : totalInv o) :
    totalInv (removeItemFromOrder itemId o) := by
  unfold removeItemFromOrder
  by_cases hlt :
      (o.items.filter (fun it => decide (it.id = itemId))).length < o.items.length
  · simp [hlt, totalInv]
  · have hle := List.length_filter_le (fun it => decide (it.id = itemId)) o.items
    have heq :
        (o.items.filter (fun it => decide (it.id = itemId))).length = o.items.length :=
      Nat.le_antisymm hle (Nat.le_of_not_lt hlt)
    have hself := filter_eq_self_of_length (fun it => decide (it.id = itemId)) o.items heq
    simp [hlt, totalInv, hself]
    exact h

/-- `updateItemInOrder` preserves the total-cost invariant: absence is a
no-op, non-positive quantities delegate to the remove path, and the
set-quantity path recomputes the total. -/
theorem totalInv_update (itemId : String) (q : Int) (o : Order) (h : totalInv o) :
    totalInv (updateItemInOrder itemId q o) := by
  unfold updateItemInOrder
  by_cases hany : o.items.any (fun it => decide (it.id = itemId))
  · by_cases hq : q ≤ 0
    · simpa [hany, hq] using totalInv_remove itemId o h
    · simp [hany, hq, totalInv]
  · simpa [hany]

/-- C3: after any sequence of add, remove and update calls starting from
the empty order, the stored total equals the sum of price times
quantity over the lines then present: every path of every mutation
either leaves the order unchanged or recomputes the total from scratch
via `calculateTotal`. -/
theorem totalCost_recomputed_invariant (ops : List Op) :
    (applyOps ops emptyOrder).totalCost
      = calculateTotal (applyOps ops emptyOrder).items := by
  suffices haux : ∀ (l : List Op) (o : Order), totalInv o → totalInv (applyOps l o) by
    exact haux ops emptyOrder rfl
  intro l
  induction l with
  | nil => intro o h; exact h
  | cons op rest ih =>
    intro o h
    have hstep : totalInv (applyOp o op) := by
      cases op with
      | add mi q => exact totalInv_add mi q o h
      | remove itemId => exact totalInv_remove itemId o h
      | update itemId q => exact totalInv_update itemId q o h
    exact ih (applyOp o op) hstep

/-! ## Claim C7 -/

/-- C7: in the structured variant, a model reply that does not parse as
JSON is a hard error for the turn: both handlers answer 500 and, when
the request names a session that exists in the store, the store is
returned unchanged (no session write happens on that turn, and no
retry or partial extraction exists on the error path). -/
theorem parse_failure_hard_error (st : Store) (uid sid newId : String) (s : SessionData) :
    (storeGet st (("user:") ++ uid) = some s →
      apiChat st uid none = (Except.error 500, st)) ∧
    (storeGet st (("session:") ++ sid) = some s →
      chatHandler newId st (some sid) none = (Except.error 500, st)) := by
  constructor
  · intro h
    simp [apiChat, getUserSession, h]
  · intro h
    simp [chatHandler, getOrCreateSession, h]

/-- Witness for C7 at a concrete one-session store: each handler
answers 500 on a parse failure and leaves the store as it was. -/
theorem parse_failure_hard_error_witness :
    apiChat ([((("user:u")), freshSessionData)]) ("u") none
        = (Except.error 500, [((("user:u")), freshSessionData)]) ∧
    chatHandler ("n") ([((("session:s1")), freshSessionData)]) (some ("s1")) none
        = (Except.error 500, [((("session:s1")), freshSessionData)]) :=
  ⟨(parse_failure_hard_error ([((("user:u")), freshSessionData)]) ("u") ("s1") ("n")
      freshSessionData).1 (by decide),
   (parse_failure_hard_error ([((("session:s1")), freshSessionData)]) ("u") ("s1") ("n")
      freshSessionData).2 (by decide)⟩

/-! ## Claim C8 -/

/-- C8: every successful structured-variant chat turn stores a session
whose order and context are exactly the payload's `currentOrder` and
`context`, independent of any prior state (first conjunct, for every
prior store); hence after two consecutive successful turns the stored
order is exactly the second payload's, with nothing carried over from
the first (second conjunct); and the second server's handler does the
same whenever the payload supplies both fields and the session exists
(third conjunct). -/
theorem structured_replace_semantics (st : Store) (uid sid newId : String)
    (p p1 p2 : PayloadA) (q : PayloadB) (o : OrderS) (c : Ctx) (s : SessionData) :
    (storeGet (apiChat st uid (some p)).2 (("user:") ++ uid)
        = some { order := p.currentOrder, context := p.context }) ∧
    (storeGet (apiChat (apiChat st uid (some p1)).2 uid (some p2)).2 (("user:") ++ uid)
        = some { order := p2.currentOrder, context := p2.context }) ∧
    (q.currentOrder = some o → q.context = some c →
      storeGet st (("session:") ++ sid) = some s →
      storeGet (chatHandler newId st (some sid) (some q)).2 (("session:") ++ sid)
        = some { order := o, context := c }) := by
  refine ⟨?_, ?_, fun ho hc h => ?_⟩
  · simp [apiChat, storeGet_set_self]
  · simp [apiChat, storeGet_set_self]
  · simp [chatHandler, getOrCreateSession, h, ho, hc, storeGet_set_self]

/-- Witness for C8 at concrete inputs: after two successful turns whose
payloads carry different orders, the stored session is exactly the
second payload's order and context. -/
theorem structured_replace_semantics_witness :
    storeGet (apiChat (apiChat ([]) ("u")
          (some { response := ("a"), currentOrder := { items := [], totalCost := 0, status := ("draft") },
                  context := freshSessionData.context })).2 ("u")
        (some { response := ("b"),
                currentOrder := { items := [ { id := ("zobo"), name := ("Zobo Drink"),
                                               price := 800, quantity := 2 } ],
                                  totalCost := 1600, status := ("draft") },
                context := freshSessionData.context })).2 (("user:") ++ ("u"))
      = some { order := { items := [ { id := ("zobo"), name := ("Zobo Drink"),
                                       price := 800, quantity := 2 } ],
                          totalCost := 1600, status := ("draft") },
               context := freshSessionData.context } ∧
    storeGet (chatHandler ("n") ([((("session:s1")), freshSessionData)]) (some ("s1"))
        (some { response := ("c"), currentOrder := some freshSessionData.order,
                context := some freshSessionData.context })).2 (("session:") ++ ("s1"))
      = some { order := freshSessionData.order, context := freshSessionData.context } :=
  ⟨(structured_replace_semantics ([]) ("u") ("s1") ("n")
      { response := ("a"), currentOrder := { items := [], totalCost := 0, status := ("draft") },
        context := freshSessionData.context }
      { response := ("a"), currentOrder := { items := [], totalCost := 0, status := ("draft") },
        context := freshSessionData.context }
      { response := ("b"),
        currentOrder := { items := [ { id := ("zobo"), name := ("Zobo Drink"),
                                       price := 800, quantity := 2 } ],
                          totalCost := 1600, status := ("draft") },
        context := freshSessionData.context }
      { response := ("c"), currentOrder := some freshSessionData.order,
        context := some freshSessionData.context }
      freshSessionData.order freshSessionData.context freshSessionData).2.1,
   (structured_replace_semantics ([((("session:s1")), freshSessionData)]) ("u") ("s1") ("n")
      { response := ("a"), currentOrder := { items := [], totalCost := 0, status := ("draft") },
        context := freshSessionData.context }
      { response := ("a"), currentOrder := { items := [], totalCost := 0, status := ("draft") },
        context := freshSessionData.context }
      { response := ("b"),
        currentOrder := { items := [ { id := ("zobo"), name := ("Zobo Drink"),
                                       price := 800, quantity := 2 } ],
                          totalCost := 1600, status := ("draft") },
        context := freshSessionData.context }
      { response := ("c"), currentOrder := some freshSessionData.order,
        context := some freshSessionData.context }
      freshSessionData.order freshSessionData.context freshSessionData).2.2
     rfl rfl (by decide)⟩

/-! ## Claim C9 -/

/-- When no earlier line carries the id, incrementing hits the appended
line. -/
theorem incQtyFirst_append (itemId : String) (q : Int) (xs : List OrderLine)
    (y : OrderLine) (h : ∀ l ∈ xs, ¬(l.id = itemId)) (hy : y.id = itemId) :
    incQtyFirst itemId q (xs ++ [y]) = xs ++ [{ y with quantity := y.quantity + q }] := by
  induction xs with
  | nil => simp [incQtyFirst, hy]
  | cons a t ih =>
    have ha : ¬(a.id = itemId) := h a (by simp)
    simp only [List.cons_append, incQtyFirst, if_neg ha, List.cons.injEq, true_and]
    exact ih (fun l hl => h l (by simp [hl]))

/-- Filtering for an id that only the appended line carries yields that
line alone. -/
theorem filter_id_append (itemId : String) (xs : List OrderLine) (y : OrderLine)
    (h : ∀ l ∈ xs, ¬(l.id = itemId)) (hy : y.id = itemId) :
    (xs ++ [y]).filter (fun l => decide (l.id = itemId)) = [y] := by
  induction xs with
  | nil => simp [List.filter_cons, hy]
  | cons a t ih =>
    have ha : ¬(a.id = itemId) := h a (by simp)
    simp only [List.cons_append, List.filter_cons, decide_eq_true_eq, ha, if_false]
    exact ih (fun l hl => h l (by simp [hl]))

/-- Incrementing a line in place does not change how many lines carry
any given id. -/
theorem countP_incQtyFirst (itemId : String) (q : Int) (j : String) :
    ∀ l : List OrderLine,
      (incQtyFirst itemId q l).countP (fun x => decide (x.id = j))
        = l.countP (fun x => decide (x.id = j)) := by
  intro l
  induction l with
  | nil => rfl
  | cons a t ih =>
    by_cases ha : a.id = itemId
    · simp [incQtyFirst, ha, List.countP_cons]
    · simp only [incQtyFirst, if_neg ha, List.countP_cons, ih]

/-- Adding the same item twice onto an order that does not yet hold it
appends a single line carrying the summed quantity. -/
theorem addItem_twice_items (m : MenuItem) (qa qb : Int) (o : Order)
    (ha : 0 < qa) (hb : 0 < qb) (h : ∀ l ∈ o.items, ¬(l.id = m.id)) :
    (addItemToOrder m qb (addItemToOrder m qa o)).items
      = o.items ++ [mkLine m (qa + qb)] := by
  have hqa : ¬(qa ≤ 0) := not_le.mpr ha
  have hqb : ¬(qb ≤ 0) := not_le.mpr hb
  have hany1 : (o.items.any (fun it => decide (it.id = m.id))) = false := by
    rw [List.any_eq_false]
    intro x hx
    simpa using h x hx
  have s1 : addItemToOrder m qa o
      = { items := o.items ++ [mkLine m qa],
          totalCost := calculateTotal (o.items ++ [mkLine m qa]) } := by
    simp [addItemToOrder, hqa, hany1]
  have hany2 : ((o.items ++ [mkLine m qa]).any (fun it => decide (it.id = m.id))) = true := by
    simp [List.any_append, mkLine]
  rw [s1]
  simp only [addItemToOrder, if_neg hqb, hany2, if_true]
  have hstep := incQtyFirst_append m.id qb o.items (mkLine m qa) h rfl
  simpa [mkLine, Int.add_comm] using hstep

/-- C9: adding quantity `q1` and then `q2` of the same item (in either
sequence) onto an order not yet holding it leaves exactly one line for
that id, carrying quantity `q1 + q2`; and every add preserves the
at-most-one-line-per-id bound for every id. -/
theorem addItem_merges_lines (m : MenuItem) (q1 q2 : Int) (o : Order)
    (h1 : 0 < q1) (h2 : 0 < q2) (h : ∀ l ∈ o.items, ¬(l.id = m.id)) :
    ((addItemToOrder m q2 (addItemToOrder m q1 o)).items.filter
        (fun l => decide (l.id = m.id))
      = [mkLine m (q1 + q2)]) ∧
    ((addItemToOrder m q1 (addItemToOrder m q2 o)).items.filter
        (fun l => decide (l.id = m.id))
      = [mkLine m (q1 + q2)]) ∧
    (∀ (mi : MenuItem) (q : Int) (o' : Order) (j : String),
      o'.items.countP (fun l => decide (l.id = j)) ≤ 1 →
      (addItemToOrder mi q o').items.countP (fun l => decide (l.id = j)) ≤ 1) := by
  refine ⟨?_, ?_, ?_⟩
  · rw [addItem_twice_items m q1 q2 o h1 h2 h]
    exact filter_id_append m.id o.items (mkLine m (q1 + q2)) h rfl
  · rw [addItem_twice_items m q2 q1 o h2 h1 h, Int.add_comm q2 q1]
    exact filter_id_append m.id o.items (mkLine m (q1 + q2)) h rfl
  · intro mi q o' j hle
    by_cases hq : q ≤ 0
    · simpa [addItemToOrder, hq]
    · by_cases hany : o'.items.any (fun it => decide (it.id = mi.id)) = true
      · simpa [addItemToOrder, hq, hany, countP_incQtyFirst] using hle
      · have hall : ∀ x ∈ o'.items, ¬(x.id = mi.id) := by
          have hf : o'.items.any (fun it => decide (it.id = mi.id)) = false :=
            Bool.eq_false_iff.mpr hany
          rw [List.any_eq_false] at hf
          intro x hx
          simpa using hf x hx
        have hnewline :
            (addItemToOrder mi q o').items = o'.items ++ [mkLine mi q] := by
          simp [addItemToOrder, hq, Bool.eq_false_iff.mpr hany]
        rw [hnewline, List.countP_append]
        by_cases hj : mi.id = j
        · have h0 : o'.items.countP (fun l => decide (l.id = j)) = 0 := by
            rw [List.countP_eq_zero]
            intro x hx
            simpa [hj] using hall x hx
          simp [h0, List.countP_cons, mkLine, hj]
        · simpa [List.countP_cons, mkLine, hj] using hle

/-- The Jollof Rice entry of the index.js menu, used for concrete
instantiations. -/
def jollofMenuItem : MenuItem :=
  { id := ("jollof_rice"), name := ("Jollof Rice"), price := 2500,
    description := ("Spicy Nigerian rice with tomatoes and spices and chicken") }

/-- Witness for C9: adding 2 then 3 Jollof Rice onto the empty order
leaves exactly one Jollof Rice line, with quantity 5. -/
theorem addItem_merges_lines_witness :
    (addItemToOrder jollofMenuItem 3 (addItemToOrder jollofMenuItem 2 emptyOrder)).items.filter
        (fun l => decide (l.id = jollofMenuItem.id))
      = [mkLine jollofMenuItem (2 + 3)] :=
  (addItem_merges_lines jollofMenuItem 2 3 emptyOrder (by decide) (by decide)
    (by intro l hl; simp [emptyOrder] at hl)).1

/-! ## Claim C4 -/

/-- The search loop of index.js `findMenuItem` computes: the first exact
match if one exists anywhere in the list, otherwise the last substring
match, otherwise the incoming `bestMatch`. -/
theorem findMenuItemGo_eq (q : List Char) (l : List MenuItem) :
    ∀ best : Option MenuItem,
      findMenuItemGo q l best
        = match firstExact q l with
          | some it => some it
          | none =>
            match lastFuzzy q l with
            | some it => some it
            | none => best := by
  induction l with
  | nil => intro best; rfl
  | cons it rest ih =>
    intro best
    by_cases hex : lowerChars it.name.data = q
    · simp [findMenuItemGo, firstExact, hex]
    · have hfe : firstExact q (it :: rest) = firstExact q rest := by
        simp [firstExact, hex]
      by_cases hfz :
          (containsSub (lowerChars it.name.data) q
            || containsSub q (lowerChars it.name.data)) = true
      · have hstep : findMenuItemGo q (it :: rest) best = findMenuItemGo q rest (some it) := by
          simp [findMenuItemGo, hex, hfz]
        have hlf : lastFuzzy q (it :: rest)
            = match lastFuzzy q rest with
              | some x => some x
              | none => some it := by
          simp [lastFuzzy, fuzzyHit, hfz]
        rw [hstep, ih (some it), hfe, hlf]
        cases hc : firstExact q rest with
        | some x => rfl
        | none =>
          cases hd : lastFuzzy q rest with
          | some y => rfl
          | none => rfl
      · have hstep : findMenuItemGo q (it :: rest) best = findMenuItemGo q rest best := by
          simp [findMenuItemGo, hex, hfz]
        have hlf : lastFuzzy q (it :: rest) = lastFuzzy q rest := by
          have hnf : fuzzyHit q it = false := by
            simpa [fuzzyHit] using hfz
          cases hd : lastFuzzy q rest with
          | some y => simp [lastFuzzy, hd]
          | none => simp [lastFuzzy, hd, hnf]
        rw [hstep, ih best, hfe, hlf]

/-- The search loop of the CLI variant returns the first item passing
its combined test. -/
theorem cliFindGo_eq (q : List Char) :
    ∀ l : List MenuItem, cliFindGo q l = l.find? (cliPred q) := by
  intro l
  induction l with
  | nil => rfl
  | cons it rest ih =>
    by_cases hp : cliPred q it
    · simp [cliFindGo, List.find?_cons, hp]
    · have hp' : cliPred q it = false := Bool.eq_false_iff.mpr hp
      simp [cliFindGo, List.find?_cons, hp', ih]

/-- C4 counterexample: on the query `rice` the index.js resolver returns
Fried Rice (the last substring match in catalog iteration order) while
the claimed precedence returns Jollof Rice (the first); and on the
query `jollof please` the index.js resolver returns nothing while the
claimed first-token fallback resolves Jollof Rice — so the claimed
precedence does not describe `findMenuItem`. -/
theorem menu_resolution_claim_refuted :
    findMenuItem ("rice") ≠ resolveClaim ("rice") ∧
    findMenuItem ("jollof please") ≠ resolveClaim ("jollof please") ∧
    (findMenuItem ("rice")).map MenuItem.id = some ("fried_rice") ∧
    (resolveClaim ("rice")).map MenuItem.id = some ("jollof_rice") ∧
    findMenuItem ("jollof please") = none ∧
    (resolveClaim ("jollof please")).map MenuItem.id = some ("jollof_rice") := by
  decide

/-- C4 (amended): menu resolution as implemented.  For index.js
`findMenuItem`: an exact case-insensitive full-name match wins (first
such item in catalog iteration order), otherwise the LAST item in
catalog iteration order related to the query by the bidirectional
case-insensitive substring test is returned, and there is no
first-token fallback.  The part_000 variant instead returns the first
item (single pass, no precedence levels) whose name contains the
query, or whose id contains the query, or where the query contains the
first word of the item name. -/
theorem menu_resolution_characterized (q : String) :
    (findMenuItem q
      = match firstExact (trimChars (lowerChars q.data)) menuItems with
        | some it => some it
        | none => lastFuzzy (trimChars (lowerChars q.data)) menuItems) ∧
    (cliFindMenuItem q
      = cliMenuItems.find? (cliPred (trimChars (lowerChars q.data)))) := by
  constructor
  · rw [findMenuItem, findMenuItemL, findMenuItemGo_eq]
    cases hc : firstExact (trimChars (lowerChars q.data)) menuItems with
    | some x => rfl
    | none =>
      cases hd : lastFuzzy (trimChars (lowerChars q.data)) menuItems with
      | some y => rfl
      | none => rfl
  · rw [cliFindMenuItem, cliFindGo_eq]

/-! ## Claim C10 -/

/-- C10: the name capture of the remove pattern is unbounded.  At a
match of `ORDER_REMOVE:` the capture extends to the end of the output
when no bar follows (first conjunct) and exactly to the next bar
otherwise (second conjunct); the scanner hands that whole capture to
menu resolution (third conjunct) and `cleanResponse` strips the whole
match, so prose following the directive with no intervening bar never
reaches the user (fourth conjunct). -/
theorem remove_capture_unbounded :
    (∀ b : List Char, b ≠ [] → (∀ c ∈ b, c ≠ '|') →
      matchRemoveAt (removeLit ++ b) = some (b, removeLit.length + b.length)) ∧
    (∀ b1 b2 : List Char, b1 ≠ [] → (∀ c ∈ b1, c ≠ '|') →
      matchRemoveAt (removeLit ++ (b1 ++ ('|' :: b2)))
        = some (b1, removeLit.length + b1.length)) ∧
    (scanRemoves (("Okay. ORDER_REMOVE:Jollof Rice I took it out.").data)
      = [("Jollof Rice I took it out.").data]) ∧
    (cleanResponse ("Okay. ORDER_REMOVE:Jollof Rice I took it out.") = ("Okay.")) := by
  refine ⟨?_, ?_, by decide, by decide⟩
  · intro b hb hpipe
    have hsw := startsWithCI_self_append removeLit b
    have hdrop : (removeLit ++ b).drop removeLit.length = b :=
      List.drop_left removeLit b
    have htw : b.takeWhile (fun c => decide (c ≠ '|')) = b :=
      takeWhile_all _ b (fun c hc => decide_eq_true (hpipe c hc))
    obtain ⟨a, as, rfl⟩ := List.exists_cons_of_ne_nil hb
    unfold matchRemoveAt
    rw [if_pos hsw]
    simp only [hdrop, htw]
    rw [if_neg (by simp)]
  · intro b1 b2 hb1 hpipe
    have hsw := startsWithCI_self_append removeLit (b1 ++ ('|' :: b2))
    have hdrop : (removeLit ++ (b1 ++ ('|' :: b2))).drop removeLit.length
        = b1 ++ ('|' :: b2) :=
      List.drop_left removeLit (b1 ++ ('|' :: b2))
    have htw : (b1 ++ ('|' :: b2)).takeWhile (fun c => decide (c ≠ '|')) = b1 :=
      takeWhile_stops _ b1 '|' b2 (fun c hc => decide_eq_true (hpipe c hc)) (by simp)
    obtain ⟨a, as, rfl⟩ := List.exists_cons_of_ne_nil hb1
    unfold matchRemoveAt
    rw [if_pos hsw]
    simp only [hdrop, htw]
    rw [if_neg (by simp)]

/-- Witness for C10: at a concrete removal directive followed by prose
with no bar, the capture is the entire tail of the output. -/
theorem remove_capture_unbounded_witness :
    matchRemoveAt (removeLit ++ ("Jollof Rice Thanks, it is gone!").data)
      = some (("Jollof Rice Thanks, it is gone!").data,
          removeLit.length + ("Jollof Rice Thanks, it is gone!").data.length) :=
  (remove_capture_unbounded).1 (("Jollof Rice Thanks, it is gone!").data)
    (by decide) (by decide)
